import Mathlib

/-!
Shallow embedding of the geospatial proximity cache
(`zameen-proximity-cache` services plus the coordinate validator of
`proxmity-cache/nodejs`).  JavaScript numbers are modelled as real
numbers; timestamps are milliseconds since the epoch, as produced by
`Date.now()`.  Redis is modelled as an association list of keys with
expiry times together with the `temporal_scores` sorted set.
-/

/-- Boolean property badges passed to the temporal scorer
(`isPremium` / `isFeatured` / `isVerified`). -/
structure PropertyAttributes where
  isPremium : Bool
  isFeatured : Bool
  isVerified : Bool
deriving DecidableEq, Repr

/-- The empty attribute object `{}` (every field is falsy). -/
def noAttrs : PropertyAttributes := ⟨false, false, false⟩

noncomputable section

open Real

/-- `calculateTemporalScore` from `decay.service.js`.  `now` is the
current time and `dateAdded` the property timestamp, both in
milliseconds; the attribute boosts mirror `DECAY_CONFIG`. -/
def calculateTemporalScore (now dateAdded : ℝ)
    (propertyAttributes : PropertyAttributes) : ℝ :=
  let ageInDays : ℝ := (now - dateAdded) / (1000 * 60 * 60 * 24)
  let score : ℝ := 1.0 * Real.exp (-(0.1) * min ageInDays 90)
  let score := score *
    (if ageInDays ≤ 7 then 1.0 else if ageInDays ≤ 30 then 0.8 else 0.6)
  let score := score * (if propertyAttributes.isPremium then 1.2 else 1)
  let score := score * (if propertyAttributes.isFeatured then 1.1 else 1)
  let score := score * (if propertyAttributes.isVerified then 1.05 else 1)
  score

/-- `calculateDynamicTTL` from `decay.service.js`: TTL in seconds from a
temporal score; `Math.floor` is the integer floor. -/
def calculateDynamicTTL (score : ℝ) (baseTime : ℝ) : ℤ :=
  let minTTL := baseTime * 0.5
  let maxTTL := baseTime * 2
  ⌊minTTL + (maxTTL - minTTL) * score⌋

/-- The temporal-score formula as the specification words it (§4.2):
the age in days is clamped below at 0 and above at 90, and the time
weight is taken on the clamped age. -/
def specTemporalScore (now dateAdded : ℝ)
    (attrs : PropertyAttributes) : ℝ :=
  let ageDays : ℝ := max 0 (min ((now - dateAdded) / (1000 * 60 * 60 * 24)) 90)
  let base : ℝ := 1.0 * Real.exp (-(0.1) * ageDays)
  let timeWeight : ℝ := if ageDays ≤ 7 then 1.0 else if ageDays ≤ 30 then 0.8 else 0.6
  let boost : ℝ := (if attrs.isPremium then 1.2 else 1) *
    (if attrs.isFeatured then 1.1 else 1) * (if attrs.isVerified then 1.05 else 1)
  base * timeWeight * boost

/-- The dynamic-TTL formula as the specification words it (§4.2): the
score is clamped into `[0, 1]` before interpolation. -/
def specDynamicTTL (score : ℝ) (baseTime : ℝ) : ℤ :=
  let minTTL := baseTime * 0.5
  let maxTTL := baseTime * 2
  ⌊minTTL + (maxTTL - minTTL) * max 0 (min score 1)⌋

end

/-- A score written for a property dated exactly `now` with no attribute
boosts is exactly `1`. -/
theorem calculateTemporalScore_self (t : ℝ) :
    calculateTemporalScore t t noAttrs = 1 := by
  simp only [calculateTemporalScore, noAttrs]
  norm_num [min_eq_left]

/-- At score `1` the dynamic TTL is exactly `7200` seconds. -/
theorem calculateDynamicTTL_one : calculateDynamicTTL 1 3600 = 7200 := by
  simp only [calculateDynamicTTL]
  rw [show (3600 : ℝ) * 0.5 + (3600 * 2 - 3600 * 0.5) * 1 = ((7200 : ℤ) : ℝ) by norm_num]
  exact Int.floor_intCast 7200

/-- The score an all-badge property dated exactly `now` receives is
`1.386`, which exceeds `1`. -/
theorem calculateTemporalScore_all_badges (t : ℝ) :
    calculateTemporalScore t t ⟨true, true, true⟩ = 1.386 := by
  simp only [calculateTemporalScore]
  norm_num [min_eq_left]

/-- C2, counterexample: for a bucket written with `dateAdded = now` and
all three badges set, the score is `1.386`; the code's TTL is then
`9284`, which differs from the spec's clamped formula (`7200`) and
exceeds `2 × baseTTL = 7200`. -/
theorem calculateDynamicTTL_unclamped_ce :
    calculateDynamicTTL (calculateTemporalScore 0 0 ⟨true, true, true⟩) 3600 ≠
      specDynamicTTL (calculateTemporalScore 0 0 ⟨true, true, true⟩) 3600 ∧
    ¬ calculateDynamicTTL (calculateTemporalScore 0 0 ⟨true, true, true⟩) 3600 ≤ 7200 := by
  rw [calculateTemporalScore_all_badges]
  have hcode : calculateDynamicTTL 1.386 3600 = 9284 := by
    simp only [calculateDynamicTTL]
    rw [Int.floor_eq_iff] <;> norm_num
  have hspec : specDynamicTTL 1.386 3600 = 7200 := by
    simp only [specDynamicTTL]
    have h1 : min (1.386 : ℝ) 1 = 1 := by norm_num [min_def]
    rw [h1, show max (0:ℝ) 1 = 1 by norm_num,
      show (3600 : ℝ) * 0.5 + (3600 * 2 - 3600 * 0.5) * 1 = ((7200 : ℤ) : ℝ) by norm_num]
    exact Int.floor_intCast 7200
  rw [hcode, hspec]
  norm_num

/-- C2, amended: without any clamp, `calculateDynamicTTL` is
`⌊1800 + 5400 × score⌋` at the default base of 3600 s, and the TTL lies
in `[1800, 7200] = [0.5 × base, 2 × base]` whenever the score lies in
`[0, 1]` (a score above 1 can exceed the upper bound). -/
theorem calculateDynamicTTL_bounds (score : ℝ) (h0 : 0 ≤ score) (h1 : score ≤ 1) :
    calculateDynamicTTL score 3600 = ⌊(1800 : ℝ) + 5400 * score⌋ ∧
    1800 ≤ calculateDynamicTTL score 3600 ∧
    calculateDynamicTTL score 3600 ≤ 7200 := by
  have hform : calculateDynamicTTL score 3600 = ⌊(1800 : ℝ) + 5400 * score⌋ := by
    simp only [calculateDynamicTTL]
    norm_num
  refine ⟨hform, ?_, ?_⟩
  · rw [hform]
    exact Int.le_floor.mpr (by push_cast; nlinarith)
  · rw [hform]
    calc ⌊(1800 : ℝ) + 5400 * score⌋ ≤ ⌊((7200 : ℤ) : ℝ)⌋ :=
          Int.floor_mono (by push_cast; nlinarith)
      _ = 7200 := Int.floor_intCast 7200

/-- Witness for `calculateDynamicTTL_bounds` at score `1/2`. -/
theorem calculateDynamicTTL_bounds_witness :
    calculateDynamicTTL (1/2 : ℝ) 3600 = ⌊(1800 : ℝ) + 5400 * (1/2 : ℝ)⌋ ∧
    1800 ≤ calculateDynamicTTL (1/2 : ℝ) 3600 ∧
    calculateDynamicTTL (1/2 : ℝ) 3600 ≤ 7200 :=
  calculateDynamicTTL_bounds (1/2) (by norm_num) (by norm_num)

/-- C7, counterexample: for a `dateAdded` ten days in the future the
code computes `exp 1 ≈ 2.718` (no lower clamp on the age) while the
spec formula clamps the age at 0 and yields `1`. -/
theorem calculateTemporalScore_future_ne_spec :
    calculateTemporalScore 0 864000000 noAttrs ≠ specTemporalScore 0 864000000 noAttrs := by
  have hcode : calculateTemporalScore 0 864000000 noAttrs = Real.exp 1 := by
    simp only [calculateTemporalScore, noAttrs]
    have hage : ((0 : ℝ) - 864000000) / (1000 * 60 * 60 * 24) = -10 := by norm_num
    rw [hage]
    norm_num [min_def]
  have hspec : specTemporalScore 0 864000000 noAttrs = 1 := by
    simp only [specTemporalScore, noAttrs]
    have hage : ((0 : ℝ) - 864000000) / (1000 * 60 * 60 * 24) = -10 := by norm_num
    rw [hage]
    norm_num [min_def, max_def]
  rw [hcode, hspec]
  have : (1 : ℝ) < Real.exp 1 := by
    have := Real.add_one_le_exp (1 : ℝ)
    linarith
  exact ne_of_gt this

/-- C7, amended: the code's score coincides with the spec formula
whenever `dateAdded ≤ now` (no future timestamps); the lower clamp only
matters for future dates. -/
theorem calculateTemporalScore_eq_spec (now dateAdded : ℝ) (a : PropertyAttributes)
    (h : dateAdded ≤ now) :
    calculateTemporalScore now dateAdded a = specTemporalScore now dateAdded a := by
  simp only [calculateTemporalScore, specTemporalScore]
  set d : ℝ := (now - dateAdded) / (1000 * 60 * 60 * 24) with hd
  have hage : (0 : ℝ) ≤ d := by
    rw [hd]
    apply div_nonneg (by linarith) (by norm_num)
  have hclamp : max 0 (min d 90) = min d 90 :=
    max_eq_right (le_min hage (by norm_num))
  rw [hclamp]
  rcases le_or_lt d 7 with h7 | h7
  · rw [if_pos h7, if_pos (le_trans (min_le_left d 90) h7)]
    ring
  · have h7' : ¬ min d 90 ≤ 7 := by
      rw [min_le_iff]
      push_neg
      exact ⟨h7, by norm_num⟩
    rw [if_neg (by linarith), if_neg h7']
    rcases le_or_lt d 30 with h30 | h30
    · rw [if_pos h30, if_pos (le_trans (min_le_left d 90) h30)]
      ring
    · have h30' : ¬ min d 90 ≤ 30 := by
        rw [min_le_iff]
        push_neg
        exact ⟨h30, by norm_num⟩
      rw [if_neg (by linarith), if_neg h30']
      ring

/-- Witness for `calculateTemporalScore_eq_spec` at
`now = dateAdded = 0`. -/
theorem calculateTemporalScore_eq_spec_witness :
    calculateTemporalScore 0 0 noAttrs = specTemporalScore 0 0 noAttrs :=
  calculateTemporalScore_eq_spec 0 0 noAttrs le_rfl

/-- C9: the temporal score is monotone in freshness — a strictly later
`dateAdded` never scores below an earlier one, across every time-weight
band and regardless of badges. -/
theorem calculateTemporalScore_monotone (now t0 t1 : ℝ) (a : PropertyAttributes)
    (h : t0 < t1) :
    calculateTemporalScore now t0 a ≤ calculateTemporalScore now t1 a := by
  simp only [calculateTemporalScore]
  set d0 : ℝ := (now - t0) / (1000 * 60 * 60 * 24) with hd0
  set d1 : ℝ := (now - t1) / (1000 * 60 * 60 * 24) with hd1
  have hdle : d1 ≤ d0 := by
    rw [hd0, hd1]
    exact (div_le_div_right (by norm_num)).mpr (by linarith)
  have hE : Real.exp (-(0.1) * min d0 90) ≤ Real.exp (-(0.1) * min d1 90) := by
    apply Real.exp_le_exp.mpr
    have := min_le_min hdle (le_refl (90 : ℝ))
    linarith
  have hW : (if d0 ≤ 7 then (1.0 : ℝ) else if d0 ≤ 30 then 0.8 else 0.6) ≤
      (if d1 ≤ 7 then (1.0 : ℝ) else if d1 ≤ 30 then 0.8 else 0.6) := by
    split_ifs <;> linarith
  have hW0 : (0 : ℝ) ≤ (if d0 ≤ 7 then (1.0 : ℝ) else if d0 ≤ 30 then 0.8 else 0.6) := by
    split_ifs <;> norm_num
  have hcore : 1.0 * Real.exp (-(0.1) * min d0 90) *
      (if d0 ≤ 7 then (1.0 : ℝ) else if d0 ≤ 30 then 0.8 else 0.6) ≤
      1.0 * Real.exp (-(0.1) * min d1 90) *
      (if d1 ≤ 7 then (1.0 : ℝ) else if d1 ≤ 30 then 0.8 else 0.6) := by
    exact mul_le_mul (mul_le_mul_of_nonneg_left hE (by norm_num)) hW hW0 (by positivity)
  have hP : (0 : ℝ) ≤ (if a.isPremium then 1.2 else 1) := by split_ifs <;> norm_num
  have hF : (0 : ℝ) ≤ (if a.isFeatured then 1.1 else 1) := by split_ifs <;> norm_num
  have hV : (0 : ℝ) ≤ (if a.isVerified then 1.05 else 1) := by split_ifs <;> norm_num
  exact mul_le_mul_of_nonneg_right
    (mul_le_mul_of_nonneg_right (mul_le_mul_of_nonneg_right hcore hP) hF) hV

/-- Witness for `calculateTemporalScore_monotone`: a property added at
time `86400000` (one day later) scores at least as high as one added at
time `0`. -/
theorem calculateTemporalScore_monotone_witness :
    calculateTemporalScore 864000000 0 noAttrs ≤
      calculateTemporalScore 864000000 86400000 noAttrs :=
  calculateTemporalScore_monotone 864000000 0 86400000 noAttrs (by norm_num)

/-- The `metadata` object stored with every cached bucket:
`{dateAdded, ...propertyAttributes}`. -/
structure CacheMetadata where
  dateAdded : ℝ
  attrs : PropertyAttributes

/-- A cached bucket as written by `setCacheWithTemporalDecay`:
`{data, score, timestamp, metadata}`. -/
structure Bucket (α : Type) where
  data : α
  score : ℝ
  timestamp : ℝ
  metadata : CacheMetadata

/-- The Redis state used by `decay.service.js`: the keyspace (each key
with its bucket and absolute expiry time in ms), the `temporal_scores`
sorted set, and the module-level `cacheHits` counter. -/
structure DecayState (α : Type) where
  kv : List (String × Bucket α × ℝ)
  zset : List (String × ℝ)
  cacheHits : ℕ

/-- Look a key up in the keyspace (first matching entry). -/
def kvFind {α : Type} (key : String) (kv : List (String × Bucket α × ℝ)) :
    Option (Bucket α × ℝ) :=
  (kv.find? (fun e => e.1 == key)).map (·.2)

/-- Look a member up in the sorted set. -/
def zFind (key : String) (zset : List (String × ℝ)) : Option ℝ :=
  (zset.find? (fun e => e.1 == key)).map (·.2)

noncomputable section

/-- Redis `GET`: a key is visible only while its expiry lies in the
future. -/
def redisGet {α : Type} (now : ℝ) (key : String) (s : DecayState α) :
    Option (Bucket α) :=
  match kvFind key s.kv with
  | none => none
  | some (b, expiry) => if now < expiry then some b else none

/-- Redis `SETEX`: overwrite the key with a fresh bucket whose TTL is
`ttlSeconds` from `now`. -/
def kvSetEx {α : Type} (now : ℝ) (key : String) (ttlSeconds : ℤ) (b : Bucket α)
    (s : DecayState α) : DecayState α :=
  { s with kv := (key, b, now + 1000 * (ttlSeconds : ℝ)) :: s.kv.filter (fun e => e.1 != key) }

/-- Redis `DEL` of a single key. -/
def kvDel {α : Type} (key : String) (s : DecayState α) : DecayState α :=
  { s with kv := s.kv.filter (fun e => e.1 != key) }

/-- Redis `ZADD` (upsert) into `temporal_scores`. -/
def zAdd {α : Type} (key : String) (score : ℝ) (s : DecayState α) : DecayState α :=
  { s with zset := (key, score) :: s.zset.filter (fun e => e.1 != key) }

/-- Redis `ZREM` from `temporal_scores`. -/
def zRem {α : Type} (key : String) (s : DecayState α) : DecayState α :=
  { s with zset := s.zset.filter (fun e => e.1 != key) }

/-- `setCacheWithTemporalDecay` from `decay.service.js`: compute the
temporal score and dynamic TTL, `SETEX` the bucket, and upsert the
score into `temporal_scores`. -/
def setCacheWithTemporalDecay {α : Type} (now : ℝ) (key : String) (value : α)
    (dateAdded : ℝ) (propertyAttributes : PropertyAttributes)
    (s : DecayState α) : DecayState α :=
  let score := calculateTemporalScore now dateAdded propertyAttributes
  let ttl := calculateDynamicTTL score 3600
  let s := kvSetEx now key ttl ⟨value, score, now, ⟨dateAdded, propertyAttributes⟩⟩ s
  zAdd key score s

/-- `getCacheWithTemporalCheck` from `decay.service.js`: on a present
key bump `cacheHits`, recompute the score from the stored metadata and
evict (DEL + ZREM, returning a miss) when it degraded below 70% of the
written score. -/
def getCacheWithTemporalCheck {α : Type} (now : ℝ) (key : String)
    (s : DecayState α) : Option α × DecayState α :=
  match redisGet now key s with
  | none => (none, s)
  | some parsed =>
    let s := { s with cacheHits := s.cacheHits + 1 }
    let currentScore :=
      calculateTemporalScore now parsed.metadata.dateAdded parsed.metadata.attrs
    if currentScore < parsed.score * 0.7 then
      (none, zRem key (kvDel key s))
    else
      (some parsed.data, s)

end

/-- Filtering out a key makes any later `find?` for that key fail. -/
theorem find?_filter_bne_eq_none {β : Type} (key : String) (l : List (String × β)) :
    ((l.filter (fun e => e.1 != key)).find? (fun e => e.1 == key)) = none := by
  induction l with
  | nil => rfl
  | cons hd tl ih =>
    by_cases h : hd.1 = key
    · simpa [List.filter_cons, h] using ih
    · simpa [List.filter_cons, h] using ih

/-- C1: after `put(k, v, dateAdded, attrs)` at time `t0`, a `get(k)` at
time `t1` within the computed TTL returns `v` unless the degradation
threshold is crossed; the bucket is stale iff
`currentScore < 0.7 × writtenScore`, and a `get` of a stale bucket
deletes the key, removes its `temporal_scores` entry, and returns a
miss. -/
theorem put_get_temporal {α : Type} (s0 : DecayState α) (key : String) (v : α)
    (dateAdded t0 t1 : ℝ) (attrs : PropertyAttributes)
    (httl : t1 < t0 + 1000 *
      ((calculateDynamicTTL (calculateTemporalScore t0 dateAdded attrs) 3600 : ℤ) : ℝ)) :
    (¬ calculateTemporalScore t1 dateAdded attrs <
        0.7 * calculateTemporalScore t0 dateAdded attrs →
      (getCacheWithTemporalCheck t1 key
        (setCacheWithTemporalDecay t0 key v dateAdded attrs s0)).1 = some v) ∧
    (calculateTemporalScore t1 dateAdded attrs <
        0.7 * calculateTemporalScore t0 dateAdded attrs →
      (getCacheWithTemporalCheck t1 key
          (setCacheWithTemporalDecay t0 key v dateAdded attrs s0)).1 = none ∧
      kvFind key (getCacheWithTemporalCheck t1 key
          (setCacheWithTemporalDecay t0 key v dateAdded attrs s0)).2.kv = none ∧
      zFind key (getCacheWithTemporalCheck t1 key
          (setCacheWithTemporalDecay t0 key v dateAdded attrs s0)).2.zset = none) := by
  have hget : redisGet t1 key (setCacheWithTemporalDecay t0 key v dateAdded attrs s0) =
      some ⟨v, calculateTemporalScore t0 dateAdded attrs, t0, ⟨dateAdded, attrs⟩⟩ := by
    simp only [setCacheWithTemporalDecay, kvSetEx, zAdd, redisGet, kvFind, List.find?_cons,
      beq_self_eq_true, Option.map_some']
    rw [if_pos httl]
  constructor
  · intro hfresh
    have hcond : ¬ calculateTemporalScore t1 dateAdded attrs <
        calculateTemporalScore t0 dateAdded attrs * 0.7 := by
      rw [mul_comm]
      exact hfresh
    simp only [getCacheWithTemporalCheck, hget, if_neg hcond]
  · intro hstale
    have hcond : calculateTemporalScore t1 dateAdded attrs <
        calculateTemporalScore t0 dateAdded attrs * 0.7 := by
      rw [mul_comm]
      exact hstale
    simp only [getCacheWithTemporalCheck, hget, if_pos hcond]
    refine ⟨trivial, ?_, ?_⟩
    · simp only [zRem, kvDel, kvFind]
      rw [List.find?_eq_none.mpr ?_]
      · rfl
      · intro e he
        have := List.of_mem_filter he
        simpa [bne_iff_ne] using this
    · simp only [zRem, kvDel, zFind]
      rw [List.find?_eq_none.mpr ?_]
      · rfl
      · intro e he
        have := List.of_mem_filter he
        simpa [bne_iff_ne] using this

/-- Witness for `put_get_temporal`: put and get both at time 0 on an
empty state; the TTL hypothesis reduces to `0 < 7 200 000` ms. -/
theorem put_get_temporal_witness :
    (¬ calculateTemporalScore 0 0 noAttrs < 0.7 * calculateTemporalScore 0 0 noAttrs →
      (getCacheWithTemporalCheck 0 "geo:abc:5"
        (setCacheWithTemporalDecay 0 "geo:abc:5" (0 : ℕ) 0 noAttrs ⟨[], [], 0⟩)).1 = some 0) ∧
    (calculateTemporalScore 0 0 noAttrs < 0.7 * calculateTemporalScore 0 0 noAttrs →
      (getCacheWithTemporalCheck 0 "geo:abc:5"
          (setCacheWithTemporalDecay 0 "geo:abc:5" (0 : ℕ) 0 noAttrs ⟨[], [], 0⟩)).1 = none ∧
      kvFind "geo:abc:5" (getCacheWithTemporalCheck 0 "geo:abc:5"
          (setCacheWithTemporalDecay 0 "geo:abc:5" (0 : ℕ) 0 noAttrs ⟨[], [], 0⟩)).2.kv = none ∧
      zFind "geo:abc:5" (getCacheWithTemporalCheck 0 "geo:abc:5"
          (setCacheWithTemporalDecay 0 "geo:abc:5" (0 : ℕ) 0 noAttrs ⟨[], [], 0⟩)).2.zset = none) :=
  put_get_temporal ⟨[], [], 0⟩ "geo:abc:5" 0 0 0 0 noAttrs
    (by rw [calculateTemporalScore_self, calculateDynamicTTL_one]; norm_num)

/-- The base-32 alphabet of the `ngeohash` library. -/
def BASE32_CODES : String := "0123456789bcdefghjkmnpqrstuvwxyz"

/-- Bit production of `ngeohash.encode`: interleaved longitude/latitude
bisection starting with longitude, one bit per step, strict `>`
comparison against the interval midpoint. -/
def geohashBitsAux (latitude longitude : ℚ) :
    ℕ → Bool → ℚ → ℚ → ℚ → ℚ → List Bool
  | 0, _, _, _, _, _ => []
  | n + 1, true, minLat, maxLat, minLon, maxLon =>
    let mid := (maxLon + minLon) / 2
    if longitude > mid then
      true :: geohashBitsAux latitude longitude n false minLat maxLat mid maxLon
    else
      false :: geohashBitsAux latitude longitude n false minLat maxLat minLon mid
  | n + 1, false, minLat, maxLat, minLon, maxLon =>
    let mid := (maxLat + minLat) / 2
    if latitude > mid then
      true :: geohashBitsAux latitude longitude n true mid maxLat minLon maxLon
    else
      false :: geohashBitsAux latitude longitude n true minLat mid minLon maxLon

/-- Numeric value of five geohash bits, most significant first. -/
def bitsToNat (l : List Bool) : ℕ :=
  l.foldl (fun a b => 2 * a + (if b then 1 else 0)) 0

/-- Base-32 digit for a 5-bit value. -/
def base32Char (n : ℕ) : Char :=
  BASE32_CODES.toList.getD n ' '

/-- Chunk the bit stream into base-32 characters, five bits each. -/
def geohashChars : List Bool → List Char
  | b1 :: b2 :: b3 :: b4 :: b5 :: rest =>
    base32Char (bitsToNat [b1, b2, b3, b4, b5]) :: geohashChars rest
  | _ => []

/-- `ngeohash.encode(latitude, longitude, numberOfChars)`. -/
def geohashEncode (latitude longitude : ℚ) (numberOfChars : ℕ) : String :=
  String.mk (geohashChars
    (geohashBitsAux latitude longitude (numberOfChars * 5) true (-90) 90 (-180) 180))

/-- 5-bit value of a base-32 digit (`BASE32_CODES_DICT`). -/
def base32Value (c : Char) : ℕ :=
  BASE32_CODES.toList.indexOf c

/-- The five bits of a base-32 digit, most significant first. -/
def charBits (c : Char) : List Bool :=
  [Nat.testBit (base32Value c) 4, Nat.testBit (base32Value c) 3,
   Nat.testBit (base32Value c) 2, Nat.testBit (base32Value c) 1,
   Nat.testBit (base32Value c) 0]

/-- Interval refinement of `ngeohash.decode_bbox`, one bit at a time. -/
def decodeBboxAux : List Bool → Bool → ℚ → ℚ → ℚ → ℚ → ℚ × ℚ × ℚ × ℚ
  | [], _, minLat, maxLat, minLon, maxLon => (minLat, minLon, maxLat, maxLon)
  | bit :: rest, true, minLat, maxLat, minLon, maxLon =>
    let mid := (maxLon + minLon) / 2
    if bit then decodeBboxAux rest false minLat maxLat mid maxLon
    else decodeBboxAux rest false minLat maxLat minLon mid
  | bit :: rest, false, minLat, maxLat, minLon, maxLon =>
    let mid := (maxLat + minLat) / 2
    if bit then decodeBboxAux rest true mid maxLat minLon maxLon
    else decodeBboxAux rest true minLat mid minLon maxLon

/-- `ngeohash.decode_bbox`: `(minLat, minLon, maxLat, maxLon)`. -/
def geohashDecodeBbox (h : String) : ℚ × ℚ × ℚ × ℚ :=
  decodeBboxAux ((h.toList.map charBits).join) true (-90) 90 (-180) 180

/-- `ngeohash.decode`: cell centre and half-cell errors,
`(latitude, longitude, latError, lonError)`. -/
def geohashDecode (h : String) : ℚ × ℚ × ℚ × ℚ :=
  let bbox := geohashDecodeBbox h
  let lat := (bbox.1 + bbox.2.2.1) / 2
  let lon := (bbox.2.1 + bbox.2.2.2) / 2
  (lat, lon, bbox.2.2.1 - lat, bbox.2.2.2 - lon)

/-- `ngeohash.ensure_valid_lon`. -/
def ensureValidLon (lon : ℚ) : ℚ :=
  if lon > 180 then lon - 360 else if lon < -180 then lon + 360 else lon

/-- `ngeohash.neighbors`: the 8 surrounding cells in the order
N, NE, E, SE, S, SW, W, NW. -/
def geohashNeighbors (h : String) : List String :=
  let d := geohashDecode h
  let lat := d.1
  let lon := d.2.1
  let latErr := d.2.2.1 * 2
  let lonErr := d.2.2.2 * 2
  let encodeNeighbor := fun (latDir lonDir : ℚ) =>
    geohashEncode (lat + latDir * latErr) (ensureValidLon (lon + lonDir * lonErr)) h.length
  [encodeNeighbor 1 0, encodeNeighbor 1 1, encodeNeighbor 0 1, encodeNeighbor (-1) 1,
   encodeNeighbor (-1) 0, encodeNeighbor (-1) (-1), encodeNeighbor 0 (-1), encodeNeighbor 1 (-1)]

/-- `organizeCache.getPrecision` from `proximity-cache.service.js`. -/
def getPrecision (radius : ℚ) : ℕ :=
  if radius ≤ 1 then 7 else if radius ≤ 5 then 6 else 5

/-- `organizeCache.generateKey`: `geo:<geohash>:<radius>`.  The decimal
rendering of the radius is abstracted by `toString`. -/
def generateKey (lat lng radius : ℚ) : String :=
  "geo:" ++ geohashEncode lat lng (getPrecision radius) ++ ":" ++ toString radius

/-- `organizeCache.getNeighbors`: neighbors of the encoding cell. -/
def getNeighbors (lat lng radius : ℚ) : List String :=
  geohashNeighbors (geohashEncode lat lng (getPrecision radius))

/-- The 9 cells touched by `radiusCache.invalidateRadius`: the encoding
cell followed by its 8 neighbors. -/
def invalidationCells (lat lng radius : ℚ) : List String :=
  let geohash := geohashEncode lat lng (getPrecision radius)
  geohash :: geohashNeighbors geohash

noncomputable section

/-- Redis `KEYS geo:<cell>:*`: the currently live keys whose name
starts with the pattern's fixed part. -/
def keysMatching {α : Type} (now : ℝ) (pat : String)
    (kv : List (String × Bucket α × ℝ)) : List String :=
  (kv.filter (fun e => pat.isPrefixOf e.1 && decide (now < e.2.2))).map (·.1)

/-- Redis `DEL keys...`. -/
def delKeys {α : Type} (ks : List String) (s : DecayState α) : DecayState α :=
  { s with kv := s.kv.filter (fun e => !(ks.contains e.1)) }

/-- One iteration of `radiusCache.invalidateRadius`: collect the live
keys matching `geo:<cell>:*` and delete them when there are any. -/
def invalidateCell {α : Type} (now : ℝ) (cell : String) (s : DecayState α) :
    DecayState α :=
  let keys := keysMatching now ("geo:" ++ cell ++ ":") s.kv
  if keys.isEmpty then s else delKeys keys s

/-- `radiusCache.invalidateRadius` from `proximity-cache.service.js`:
run the deletion for the encoding cell and its 8 neighbors. -/
def invalidateRadius {α : Type} (now : ℝ) (lat lng radius : ℚ)
    (s : DecayState α) : DecayState α :=
  (invalidationCells lat lng radius).foldl
    (fun st cell => invalidateCell now cell st) s

end

/-- `invalidateCell` never touches the `temporal_scores` sorted set. -/
theorem zset_invalidateCell {α : Type} (now : ℝ) (cell : String) (s : DecayState α) :
    (invalidateCell now cell s).zset = s.zset := by
  simp only [invalidateCell, delKeys]
  split <;> rfl

/-- A fold of `invalidateCell` never touches `temporal_scores`. -/
theorem zset_foldl_invalidateCell {α : Type} (now : ℝ) (l : List String) :
    ∀ s : DecayState α,
      ((l.foldl (fun st cell => invalidateCell now cell st) s).zset = s.zset) := by
  induction l with
  | nil => intro s; rfl
  | cons hd tl ih =>
    intro s
    simpa [List.foldl_cons, zset_invalidateCell] using ih (invalidateCell now hd s)

/-- `find?` by key is unaffected by filtering out other keys. -/
theorem find?_filter_not_mem {β : Type} (k : String) (ks : List String)
    (hk : k ∉ ks) (l : List (String × β)) :
    (l.filter (fun e => !(ks.contains e.1))).find? (fun e => e.1 == k) =
      l.find? (fun e => e.1 == k) := by
  induction l with
  | nil => rfl
  | cons hd tl ih =>
    rw [List.filter_cons]
    by_cases hcont : hd.1 ∈ ks
    · rw [if_neg (by simp [hcont])]
      have hhd : ¬ hd.1 = k := fun hKey => hk (hKey ▸ hcont)
      rw [List.find?_cons_of_neg _ (by simp [hhd])]
      exact ih
    · rw [if_pos (by simp [hcont])]
      by_cases hhd : hd.1 = k
      · rw [List.find?_cons_of_pos _ (by simp [hhd]), List.find?_cons_of_pos _ (by simp [hhd])]
      · rw [List.find?_cons_of_neg _ (by simp [hhd]), List.find?_cons_of_neg _ (by simp [hhd])]
        exact ih

/-- `find?` by a deleted key fails. -/
theorem find?_filter_mem {β : Type} (k : String) (ks : List String)
    (hk : k ∈ ks) (l : List (String × β)) :
    (l.filter (fun e => !(ks.contains e.1))).find? (fun e => e.1 == k) = none := by
  rw [List.find?_eq_none]
  intro e he hek
  have hmem := List.of_mem_filter he
  have hnot : e.1 ∉ ks := by simpa using hmem
  exact hnot (by rwa [show e.1 = k from by simpa using hek])

/-- Redis `GET` after `DEL keys...`: deleted keys read as absent, other
keys are untouched. -/
theorem redisGet_delKeys {α : Type} (now : ℝ) (k : String) (ks : List String)
    (s : DecayState α) :
    redisGet now k (delKeys ks s) =
      if k ∈ ks then none else redisGet now k s := by
  by_cases hc : k ∈ ks
  · rw [if_pos hc]
    simp only [redisGet, kvFind, delKeys]
    rw [find?_filter_mem k ks hc]
    rfl
  · rw [if_neg hc]
    simp only [redisGet, kvFind, delKeys]
    rw [find?_filter_not_mem k ks hc]

/-- Every key reported by `KEYS geo:<cell>:*` matches the pattern. -/
theorem keysMatching_sound {α : Type} (now : ℝ) (pat k : String)
    (kv : List (String × Bucket α × ℝ)) (h : k ∈ keysMatching now pat kv) :
    pat.isPrefixOf k = true := by
  simp only [keysMatching, List.mem_map] at h
  obtain ⟨e, he, rfl⟩ := h
  have := List.of_mem_filter he
  exact (Bool.and_elim_left this)

/-- A live key matching the pattern is reported by
`KEYS geo:<cell>:*`. -/
theorem keysMatching_complete {α : Type} (now : ℝ) (pat k : String)
    (s : DecayState α) (hpre : pat.isPrefixOf k = true)
    (hlive : redisGet now k s ≠ none) :
    k ∈ keysMatching now pat s.kv := by
  rcases hf : kvFind k s.kv with _ | ⟨b, expiry⟩
  · exact absurd (by simp [redisGet, hf]) hlive
  · have hexp : now < expiry := by
      by_contra hnot
      exact hlive (by simp [redisGet, hf, hnot])
    simp only [kvFind, Option.map_eq_some'] at hf
    obtain ⟨e, hfind, h2⟩ := hf
    have hmem := List.mem_of_find?_eq_some hfind
    have hkey : e.1 = k := by simpa using List.find?_some hfind
    simp only [keysMatching, List.mem_map]
    refine ⟨e, List.mem_filter.mpr ⟨hmem, ?_⟩, hkey⟩
    rw [hkey, hpre, h2]
    simp [hexp]

/-- Reading any key after `invalidateCell`: the result is a miss exactly
when the key matched the cell's pattern or was already a miss. -/
theorem redisGet_invalidateCell_eq_none_iff {α : Type} (now : ℝ) (cell k : String)
    (s : DecayState α) :
    redisGet now k (invalidateCell now cell s) = none ↔
      (("geo:" ++ cell ++ ":").isPrefixOf k = true ∨ redisGet now k s = none) := by
  simp only [invalidateCell]
  by_cases hemp : (keysMatching now ("geo:" ++ cell ++ ":") s.kv).isEmpty
  · rw [if_pos hemp]
    constructor
    · intro h
      exact Or.inr h
    · rintro (hpre | hdead)
      · by_cases hlive : redisGet now k s = none
        · exact hlive
        · exfalso
          have := keysMatching_complete now _ k s hpre hlive
          rw [List.isEmpty_iff] at hemp
          rw [hemp] at this
          exact absurd this (List.not_mem_nil k)
      · exact hdead
  · rw [if_neg hemp, redisGet_delKeys]
    by_cases hc : k ∈ keysMatching now ("geo:" ++ cell ++ ":") s.kv
    · rw [if_pos hc]
      constructor
      · intro _
        exact Or.inl (keysMatching_sound now _ k s.kv hc)
      · intro _
        rfl
    · rw [if_neg hc]
      constructor
      · intro h
        exact Or.inr h
      · rintro (hpre | hdead)
        · by_cases hlive : redisGet now k s = none
          · exact hlive
          · exact absurd (keysMatching_complete now _ k s hpre hlive) hc
        · exact hdead

/-- A key reading as a miss stays a miss through any sequence of
invalidation iterations. -/
theorem redisGet_foldl_invalidate_none {α : Type} (now : ℝ) (k : String) :
    ∀ (l : List String) (s : DecayState α), redisGet now k s = none →
      redisGet now k (l.foldl (fun st cell => invalidateCell now cell st) s) = none := by
  intro l
  induction l with
  | nil => intro s h; exact h
  | cons hd tl ih =>
    intro s h
    exact ih _ ((redisGet_invalidateCell_eq_none_iff now hd k s).mpr (Or.inr h))

/-- Once an iteration handles the key's cell, the key reads as a miss
after the whole fold. -/
theorem redisGet_foldl_invalidate_kills {α : Type} (now : ℝ) (k cell : String) :
    ∀ (l : List String) (s : DecayState α), cell ∈ l →
      ("geo:" ++ cell ++ ":").isPrefixOf k = true →
      redisGet now k (l.foldl (fun st c => invalidateCell now c st) s) = none := by
  intro l
  induction l with
  | nil =>
    intro s h _
    exact absurd h (List.not_mem_nil cell)
  | cons hd tl ih =>
    intro s hmem hpre
    rcases List.mem_cons.mp hmem with rfl | hmem'
    · exact redisGet_foldl_invalidate_none now k tl _
        ((redisGet_invalidateCell_eq_none_iff now cell k s).mpr (Or.inl hpre))
    · exact ih _ hmem' hpre

/-- C3, amended: `invalidateRadius(lat, lng, radiusKm)` deletes every
currently present key matching `geo:<cell>:*` for the encoding cell and
its 8 neighbors, but it does not remove any `temporal_scores`
(ScoreIndex) entry — the sorted set is left exactly as it was. -/
theorem invalidateRadius_deletes_matching {α : Type} (now : ℝ) (lat lng radius : ℚ)
    (s : DecayState α) :
    (∀ k cell, cell ∈ invalidationCells lat lng radius →
      ("geo:" ++ cell ++ ":").isPrefixOf k = true →
      redisGet now k (invalidateRadius now lat lng radius s) = none) ∧
    (invalidateRadius now lat lng radius s).zset = s.zset := by
  constructor
  · intro k cell hmem hpre
    exact redisGet_foldl_invalidate_kills now k cell _ s hmem hpre
  · exact zset_foldl_invalidateCell now _ s

/-- Witness for `invalidateRadius_deletes_matching`: the key
`geo:7zzzz:10` (cell of the origin at precision 5) is gone after
invalidating around the origin with radius 10. -/
theorem invalidateRadius_deletes_matching_witness :
    redisGet 0 "geo:7zzzz:10" (invalidateRadius 0 0 0 10
      (⟨[("geo:7zzzz:10", ⟨(), 1, 0, ⟨0, noAttrs⟩⟩, 100)], [], 0⟩ : DecayState Unit)) = none :=
  (invalidateRadius_deletes_matching 0 0 0 10 _).1 "geo:7zzzz:10" "7zzzz"
    (by with_unfolding_all decide) (by with_unfolding_all decide)

/-- State refuting C3 as stated: one live bucket for the origin cell,
with its ScoreIndex entry present. -/
def invalidateRadiusCeState : DecayState Unit :=
  ⟨[("geo:7zzzz:10", ⟨(), 1, 0, ⟨0, noAttrs⟩⟩, 100)], [("geo:7zzzz:10", 1)], 0⟩

/-- C3, counterexample: invalidating around `(0, 0)` with radius 10
deletes the live key `geo:7zzzz:10`, but its ScoreIndex entry survives,
so the claim's "removes the ScoreIndex entries of every deleted key"
fails. -/
theorem invalidateRadius_scoreindex_ce :
    ¬ ((∀ k cell, cell ∈ invalidationCells 0 0 10 →
          ("geo:" ++ cell ++ ":").isPrefixOf k = true →
          redisGet 0 k (invalidateRadius 0 0 0 10 invalidateRadiusCeState) = none) ∧
       (∀ k, redisGet 0 k invalidateRadiusCeState ≠ none →
          redisGet 0 k (invalidateRadius 0 0 0 10 invalidateRadiusCeState) = none →
          zFind k (invalidateRadius 0 0 0 10 invalidateRadiusCeState).zset = none)) := by
  rintro ⟨hA, hB⟩
  have hdead := hA "geo:7zzzz:10" "7zzzz" (by with_unfolding_all decide)
    (by with_unfolding_all decide)
  have heq : redisGet (0 : ℝ) "geo:7zzzz:10" invalidateRadiusCeState =
      some ⟨(), 1, 0, ⟨0, noAttrs⟩⟩ := by
    simp only [invalidateRadiusCeState, redisGet, kvFind, List.find?_cons,
      beq_self_eq_true, Option.map_some']
    rw [if_pos (by norm_num : (0 : ℝ) < 100)]
  have hlive : redisGet (0 : ℝ) "geo:7zzzz:10" invalidateRadiusCeState ≠ none := by
    rw [heq]
    exact fun hcon => Option.noConfusion hcon
  have hz := hB "geo:7zzzz:10" hlive hdead
  have hzset : (invalidateRadius 0 0 0 10 invalidateRadiusCeState).zset =
      invalidateRadiusCeState.zset :=
    zset_foldl_invalidateCell 0 _ invalidateRadiusCeState
  rw [hzset] at hz
  simp [invalidateRadiusCeState, zFind] at hz

/-- Result shape of `validateCoordinates` in
`proxmity-cache/nodejs/src/utils/validation.js`. -/
inductive ValidationResult where
  | invalid (error : String)
  | valid (latitude longitude : ℚ)
deriving DecidableEq, Repr

/-- `validateCoordinates` from `validation.js` (numeric path): note the
source compares against `±5000` and `±100000`, not `±90` / `±180`. -/
def validateCoordinates (latitude longitude : ℚ) : ValidationResult :=
  if latitude < -5000 ∨ latitude > 5000 then
    .invalid "Latitude must be between -90 and 90"
  else if longitude < -100000 ∨ longitude > 100000 then
    .invalid "Longitude must be between -180 and 180"
  else
    .valid latitude longitude

/-- C5: the coordinate validator accepts `lat = 1000, lng = 200`, both
far outside the documented `[-90, 90]` / `[-180, 180]` ranges — the
request is not rejected with `InvalidCoordinate`, contradicting the
validator's own error messages. -/
theorem validateCoordinates_accepts_out_of_range :
    validateCoordinates 1000 200 = .valid 1000 200 ∧
    ¬ ((-90 : ℚ) ≤ 1000 ∧ (1000 : ℚ) ≤ 90) ∧
    ¬ ((-180 : ℚ) ≤ 200 ∧ (200 : ℚ) ≤ 180) := by
  refine ⟨?_, by norm_num, by norm_num⟩
  simp only [validateCoordinates]
  rw [if_neg (by norm_num), if_neg (by norm_num)]

/-- Per-cell hit/miss counters of `cacheOptimizer` in
`proximity-cache.service.js` (the two `Map`s, absent cells read 0). -/
structure OptimizerState where
  hitCounter : String → ℕ
  missCounter : String → ℕ

/-- `Map.set` on a counter table. -/
def counterSet (f : String → ℕ) (g : String) (v : ℕ) : String → ℕ :=
  fun k => if k = g then v else f k

noncomputable section

/-- Redis `EXPIRE key ttl`: reset the expiry of the key with exactly
this name, when it is live; `EXPIRE` does not interpret glob
patterns. -/
def redisExpire {α : Type} (key : String) (ttlSeconds : ℝ) (now : ℝ)
    (s : DecayState α) : DecayState α :=
  { s with kv := s.kv.map (fun e =>
      if e.1 = key ∧ now < e.2.2 then (e.1, e.2.1, now + 1000 * ttlSeconds) else e) }

/-- `cacheOptimizer.adjustCacheStrategy`: for a hit ratio below 0.3 the
code calls `EXPIRE` on the literal string `geo:<cell>:*`. -/
def adjustCacheStrategy {α : Type} (geohash : String) (hitRatio : ℚ) (now : ℝ)
    (s : DecayState α) : DecayState α :=
  if hitRatio < 0.3 then redisExpire ("geo:" ++ geohash ++ ":*") 1800 now s else s

/-- `cacheOptimizer.optimizeIfNeeded`: every 100 events per cell,
adjust the strategy when the hit ratio is below 0.5 and reset both
counters. -/
def optimizeIfNeeded {α : Type} (geohash : String) (now : ℝ)
    (st : OptimizerState × DecayState α) : OptimizerState × DecayState α :=
  let hits := st.1.hitCounter geohash
  let misses := st.1.missCounter geohash
  let total := hits + misses
  if total ≥ 100 then
    let hitRatio : ℚ := (hits : ℚ) / (total : ℚ)
    let redis := if hitRatio < 0.5 then adjustCacheStrategy geohash hitRatio now st.2 else st.2
    (⟨counterSet st.1.hitCounter geohash 0, counterSet st.1.missCounter geohash 0⟩, redis)
  else
    st

/-- `cacheOptimizer.trackHit`. -/
def trackHit {α : Type} (geohash : String) (now : ℝ)
    (st : OptimizerState × DecayState α) : OptimizerState × DecayState α :=
  optimizeIfNeeded geohash now
    (⟨counterSet st.1.hitCounter geohash (st.1.hitCounter geohash + 1), st.1.missCounter⟩, st.2)

/-- `cacheOptimizer.trackMiss`. -/
def trackMiss {α : Type} (geohash : String) (now : ℝ)
    (st : OptimizerState × DecayState α) : OptimizerState × DecayState α :=
  optimizeIfNeeded geohash now
    (⟨st.1.hitCounter, counterSet st.1.missCounter geohash (st.1.missCounter geohash + 1)⟩, st.2)

end

/-- Counter state with 20 recorded hits and 79 recorded misses for cell
`abcde`. -/
def optimizerCeOpt : OptimizerState :=
  ⟨fun g => if g = "abcde" then 20 else 0, fun g => if g = "abcde" then 79 else 0⟩

/-- Redis state with one live key in cell `abcde`, expiring at
5 000 000 ms. -/
def optimizerCeRedis : DecayState Unit :=
  ⟨[("geo:abcde:5", ⟨(), 1, 0, ⟨0, noAttrs⟩⟩, 5000000)], [], 0⟩

/-- C6, failing input: the 100th event for cell `abcde` arrives with 20
hits / 80 misses (ratio 0.2 < 0.3).  Both counters are reset, but the
keyspace is completely unchanged — `EXPIRE geo:abcde:*` names a
non-existent literal key, so the live key `geo:abcde:5` keeps its old
expiry of 5 000 000 ms instead of being shortened to 1800 s. -/
theorem cacheOptimizer_expire_pattern_ce :
    ((trackMiss "abcde" 0 (optimizerCeOpt, optimizerCeRedis)).1.hitCounter "abcde" = 0 ∧
     (trackMiss "abcde" 0 (optimizerCeOpt, optimizerCeRedis)).1.missCounter "abcde" = 0) ∧
    (trackMiss "abcde" 0 (optimizerCeOpt, optimizerCeRedis)).2.kv = optimizerCeRedis.kv ∧
    optimizerCeRedis.kv =
      [("geo:abcde:5", ⟨(), 1, 0, ⟨0, noAttrs⟩⟩, 5000000)] := by
  have hratio : ((20 : ℕ) : ℚ) / (((20 : ℕ) + (80 : ℕ) : ℕ) : ℚ) < 0.3 := by norm_num
  constructor
  · constructor <;>
      simp [trackMiss, optimizeIfNeeded, counterSet, optimizerCeOpt]
  · constructor
    · simp only [trackMiss, optimizeIfNeeded, counterSet, optimizerCeOpt, optimizerCeRedis,
        adjustCacheStrategy, redisExpire]
      norm_num
      decide
    · rfl

/-- A property row as returned by the `$geoNear` aggregation: its
`date_added` timestamp, badge fields, and the `distance` field in
meters; `pid` stands for the remaining payload columns. -/
structure RawProperty where
  date_added : ℝ
  isPremium : Bool
  isFeatured : Bool
  isVerified : Bool
  distance : ℝ
  pid : ℕ

/-- `{...property, score}` — the row with the combined score
attached. -/
structure ScoredProperty where
  prop : RawProperty
  score : ℝ

noncomputable section

/-- The scoring map of `findNearbyProperties`
(`property.services.js`): `calculateTemporalScore(property.date_added)`
is called without the attributes argument, so the badges default to the
empty object, times the distance factor `1 / (1 + distance/1000)`. -/
def attachScore (now : ℝ) (p : RawProperty) : ScoredProperty :=
  ⟨p, calculateTemporalScore now p.date_added noAttrs * (1 / (1 + p.distance / 1000))⟩

/-- Scoring followed by `properties.sort((a, b) => b.score - a.score)`:
descending order by the attached score. -/
def scoreAndSortProperties (now : ℝ) (ps : List RawProperty) : List ScoredProperty :=
  (ps.map (attachScore now)).mergeSort (fun a b => decide (b.score ≤ a.score))

end

/-- C4, counterexample: a premium property dated `now` at distance 0
gets attached score `1` (the code passes no attributes to the temporal
scorer), while the claimed relevance
`temporalScore(dateAdded, item attrs) × 1/(1 + distanceKm)` is `1.2`. -/
theorem nearby_relevance_ignores_attrs_ce :
    (scoreAndSortProperties 0 [⟨0, true, false, false, 0, 0⟩]).map (fun sp => sp.score) ≠
      [calculateTemporalScore 0 0 ⟨true, false, false⟩ * (1 / (1 + (0 : ℝ) / 1000))] := by
  have hlhs : (scoreAndSortProperties 0 [⟨0, true, false, false, 0, 0⟩]).map
      (fun sp => sp.score) = [(1 : ℝ)] := by
    simp only [scoreAndSortProperties, List.map_cons, List.map_nil, List.mergeSort_singleton,
      attachScore, calculateTemporalScore_self]
    norm_num
  have hrhs : calculateTemporalScore 0 0 ⟨true, false, false⟩ * (1 / (1 + (0 : ℝ) / 1000)) =
      1.2 := by
    have hts : calculateTemporalScore 0 0 ⟨true, false, false⟩ = 1.2 := by
      simp only [calculateTemporalScore]
      norm_num [min_eq_left]
    rw [hts]
    norm_num
  rw [hlhs, hrhs]
  intro hcon
  have := List.cons.injEq (1 : ℝ) [] 1.2 [] ▸ hcon
  norm_num at hcon

/-- C4, amended: on a cache miss every returned item carries
`score = temporalScore(date_added, {}) × 1/(1 + distance/1000)` — the
badges of the item are ignored — and the returned list is a
permutation of the scored page, sorted non-increasing by that score. -/
theorem nearby_scoring_sorted (now : ℝ) (ps : List RawProperty) :
    (∀ sp ∈ scoreAndSortProperties now ps,
       sp.score = calculateTemporalScore now sp.prop.date_added noAttrs *
         (1 / (1 + sp.prop.distance / 1000))) ∧
    (scoreAndSortProperties now ps).Pairwise (fun a b => b.score ≤ a.score) ∧
    List.Perm ((scoreAndSortProperties now ps).map (fun sp => sp.prop)) ps := by
  refine ⟨?_, ?_, ?_⟩
  · intro sp hsp
    rw [scoreAndSortProperties, List.mem_mergeSort] at hsp
    obtain ⟨p, _, rfl⟩ := List.mem_map.mp hsp
    rfl
  · have hs := @List.sorted_mergeSort ScoredProperty
      (fun a b : ScoredProperty => decide (b.score ≤ a.score))
      (fun a b c hab hbc =>
        decide_eq_true (le_trans (of_decide_eq_true hbc) (of_decide_eq_true hab)))
      (fun a b => by
        rcases le_total b.score a.score with h | h
        · simp [h]
        · simp [h])
      (ps.map (attachScore now))
    exact hs.imp (fun h => of_decide_eq_true h)
  · have hperm : List.Perm ((scoreAndSortProperties now ps).map (fun sp => sp.prop))
        ((ps.map (attachScore now)).map (fun sp => sp.prop)) :=
      (List.mergeSort_perm _ _).map _
    have heq : (ps.map (attachScore now)).map (fun sp => sp.prop) = ps := by
      rw [List.map_map]
      exact List.map_id'' (fun _ => rfl) ps
    rwa [heq] at hperm

/-- Witness for `nearby_scoring_sorted`: the single premium item of the
counterexample indeed carries the attrs-free score. -/
theorem nearby_scoring_sorted_witness :
    (attachScore 0 ⟨0, true, false, false, 0, 0⟩).score =
      calculateTemporalScore 0
        (attachScore 0 ⟨0, true, false, false, 0, 0⟩).prop.date_added noAttrs *
        (1 / (1 + (attachScore 0 ⟨0, true, false, false, 0, 0⟩).prop.distance / 1000)) :=
  (nearby_scoring_sorted 0 [⟨0, true, false, false, 0, 0⟩]).1
    (attachScore 0 ⟨0, true, false, false, 0, 0⟩)
    (by simp [scoreAndSortProperties])

/-- The result object built by `findNearbyProperties` on a cache
miss. -/
structure NearbyResult where
  properties : List ScoredProperty
  totalCount : ℕ
  totalPages : ℕ
  currentPage : ℕ
  queryTimestamp : ℝ
  lat : ℚ
  lng : ℚ
  radius : ℚ

/-- A cached payload: either a full nearby result or a warming payload
`{properties, metadata: {queryTimestamp}}`. -/
inductive CachedData where
  | result (r : NearbyResult)
  | warmed (properties : List RawProperty) (queryTimestamp : ℝ)

/-- The MongoDB adapter consumed by the coordinator: `$geoNear` count,
`$geoNear` page (skip/limit), and the warming query
(`$geoNear` + `$limit: 10`).  Arguments are the `near` center
(longitude, latitude) and `maxDistance` in meters. -/
structure DocStore where
  countNear : ℚ → ℚ → ℚ → ℕ
  pageNear : ℚ → ℚ → ℚ → ℕ → ℕ → List RawProperty
  warmNear : ℚ → ℚ → ℚ → List RawProperty

noncomputable section

/-- The neighbor-warming loop of `findNearbyProperties`: for every
neighbor cell, run the warming query — whose `near` center is the
original `[longitude, latitude]` — and cache the payload under
`geo:<neighbor>:<radius>` only when it is non-empty. -/
def warmNeighbors (doc : DocStore) (now : ℝ) (lat lng radius : ℚ)
    (s : DecayState CachedData) : DecayState CachedData :=
  (getNeighbors lat lng radius).foldl
    (fun st neighbor =>
      let neighborKey := "geo:" ++ neighbor ++ ":" ++ toString radius
      let neighborProperties := doc.warmNear lng lat (radius * 1000)
      if neighborProperties.isEmpty then st
      else setCacheWithTemporalDecay now neighborKey
        (CachedData.warmed neighborProperties now) now noAttrs st) s

/-- `findNearbyProperties` from `property.services.js`: cache lookup,
hit/miss tracking, `$geoNear` count and page on a miss, scoring and
sorting, caching the result with `dateAdded = now` and empty attrs, and
neighbor warming. -/
def findNearbyProperties (doc : DocStore) (now : ℝ) (lat lng radius : ℚ)
    (page limit : ℕ) (st : OptimizerState × DecayState CachedData) :
    CachedData × OptimizerState × DecayState CachedData :=
  let cacheKey := generateKey lat lng radius
  match getCacheWithTemporalCheck now cacheKey st.2 with
  | (some cachedResult, c1) =>
      let st' := trackHit cacheKey now (st.1, c1)
      (cachedResult, st')
  | (none, c1) =>
      let st1 := trackMiss cacheKey now (st.1, c1)
      let totalCount := doc.countNear lng lat (radius * 1000)
      let totalPages := (totalCount + limit - 1) / limit
      let properties := scoreAndSortProperties now
        (doc.pageNear lng lat (radius * 1000) ((page - 1) * limit) limit)
      let result : NearbyResult :=
        ⟨properties, totalCount, totalPages, page, now, lat, lng, radius⟩
      let c2 := setCacheWithTemporalDecay now cacheKey (CachedData.result result) now noAttrs st1.2
      let c3 := warmNeighbors doc now lat lng radius c2
      (CachedData.result result, st1.1, c3)

/-- Modelled from the spec: `redis.services.js` (which defines the
`getCacheHitCount` consumed by the `GET /cacheStats` route) is not
present under `src/`; per the spec's §6 API table and §8 scenario 2,
the `cacheHits` statistic reported by `cacheStats` counts the cache
hits recorded by the cache layer. -/
def getCacheHitCount (s : DecayState CachedData) : ℕ := s.cacheHits

end

/-- `find?` by one key ignores filtering out a different key. -/
theorem find?_filter_bne_ne {β : Type} (k k' : String) (hk : k ≠ k')
    (l : List (String × β)) :
    ((l.filter (fun e => e.1 != k')).find? (fun e => e.1 == k)) =
      l.find? (fun e => e.1 == k) := by
  induction l with
  | nil => rfl
  | cons hd tl ih =>
    rw [List.filter_cons]
    by_cases hhd : hd.1 = k'
    · rw [if_neg (by simp [hhd])]
      rw [List.find?_cons_of_neg _ (by rw [hhd]; exact fun h => hk (eq_of_beq h).symm)]
      exact ih
    · rw [if_pos (by simp [hhd])]
      by_cases hk2 : hd.1 = k
      · rw [List.find?_cons_of_pos _ (by simp [hk2]), List.find?_cons_of_pos _ (by simp [hk2])]
      · rw [List.find?_cons_of_neg _ (by simp [hk2]), List.find?_cons_of_neg _ (by simp [hk2])]
        exact ih

/-- Keyspace lookup after `setCacheWithTemporalDecay`: the written key
reads as the fresh bucket with its dynamic-TTL expiry; other keys are
untouched. -/
theorem kvFind_setCache {α : Type} (now : ℝ) (k k' : String) (v : α) (d : ℝ)
    (a : PropertyAttributes) (s : DecayState α) :
    kvFind k (setCacheWithTemporalDecay now k' v d a s).kv =
      if k = k' then
        some (⟨v, calculateTemporalScore now d a, now, ⟨d, a⟩⟩,
          now + 1000 * ((calculateDynamicTTL (calculateTemporalScore now d a) 3600 : ℤ) : ℝ))
      else kvFind k s.kv := by
  by_cases h : k = k'
  · subst h
    rw [if_pos rfl]
    simp [setCacheWithTemporalDecay, kvSetEx, zAdd, kvFind, List.find?_cons]
  · rw [if_neg h]
    simp only [setCacheWithTemporalDecay, kvSetEx, zAdd, kvFind]
    rw [List.find?_cons_of_neg _ (by simp [Ne.symm h])]
    rw [find?_filter_bne_ne k k' h]

/-- `setCacheWithTemporalDecay` does not change the hit counter. -/
theorem cacheHits_setCache {α : Type} (now : ℝ) (k : String) (v : α) (d : ℝ)
    (a : PropertyAttributes) (s : DecayState α) :
    (setCacheWithTemporalDecay now k v d a s).cacheHits = s.cacheHits := rfl

/-- The optimizer never changes the hit counter. -/
theorem cacheHits_optimizeIfNeeded {α : Type} (g : String) (now : ℝ)
    (o : OptimizerState) (s : DecayState α) :
    ((optimizeIfNeeded g now (o, s)).2).cacheHits = s.cacheHits := by
  simp only [optimizeIfNeeded, adjustCacheStrategy, redisExpire]
  split_ifs <;> rfl

/-- `trackHit` never changes the hit counter of the decay layer. -/
theorem cacheHits_trackHit {α : Type} (g : String) (now : ℝ)
    (o : OptimizerState) (s : DecayState α) :
    ((trackHit g now (o, s)).2).cacheHits = s.cacheHits :=
  cacheHits_optimizeIfNeeded g now _ s

/-- `trackMiss` never changes the hit counter of the decay layer. -/
theorem cacheHits_trackMiss {α : Type} (g : String) (now : ℝ)
    (o : OptimizerState) (s : DecayState α) :
    ((trackMiss g now (o, s)).2).cacheHits = s.cacheHits :=
  cacheHits_optimizeIfNeeded g now _ s

/-- Neighbor warming does not change the hit counter. -/
theorem cacheHits_warmNeighbors (doc : DocStore) (now : ℝ) (lat lng radius : ℚ)
    (s : DecayState CachedData) :
    (warmNeighbors doc now lat lng radius s).cacheHits = s.cacheHits := by
  rw [warmNeighbors]
  generalize getNeighbors lat lng radius = l
  induction l generalizing s with
  | nil => rfl
  | cons hd tl ih =>
    rw [List.foldl_cons, ih]
    dsimp only
    split <;> rfl

/-- Warming leaves a key alone when, for every neighbor, either the
warming key differs from it or the warming payload is empty. -/
theorem kvFind_warmNeighbors_other (doc : DocStore) (now : ℝ) (lat lng radius : ℚ)
    (s : DecayState CachedData) (k : String)
    (hk : ∀ n ∈ getNeighbors lat lng radius,
      k ≠ "geo:" ++ n ++ ":" ++ toString radius ∨
      doc.warmNear lng lat (radius * 1000) = []) :
    kvFind k (warmNeighbors doc now lat lng radius s).kv = kvFind k s.kv := by
  rw [warmNeighbors]
  revert hk
  generalize getNeighbors lat lng radius = l
  induction l generalizing s with
  | nil => intro _; rfl
  | cons hd tl ih =>
    intro hk
    rw [List.foldl_cons]
    dsimp only
    by_cases hemp : (doc.warmNear lng lat (radius * 1000)).isEmpty
    · rw [if_pos hemp]
      exact ih s (fun n hn => hk n (List.mem_cons_of_mem hd hn))
    · rw [if_neg hemp]
      have hne : k ≠ "geo:" ++ hd ++ ":" ++ toString radius := by
        rcases hk hd (List.mem_cons_self hd tl) with h | h
        · exact h
        · exact absurd (by rw [h]; rfl) hemp
      rw [ih _ (fun n hn => hk n (List.mem_cons_of_mem hd hn))]
      rw [kvFind_setCache, if_neg hne]

/-- Once the warming bucket is in place for a key, the rest of the
warming loop keeps it there (later writes to the same key rewrite the
identical bucket). -/
theorem kvFind_warmNeighbors_frozen (doc : DocStore) (now : ℝ) (lat lng radius : ℚ)
    (k : String) (l : List String) :
    ∀ s : DecayState CachedData,
      kvFind k s.kv =
        some (⟨CachedData.warmed (doc.warmNear lng lat (radius * 1000)) now,
          calculateTemporalScore now now noAttrs, now, ⟨now, noAttrs⟩⟩,
          now + 1000 * ((calculateDynamicTTL (calculateTemporalScore now now noAttrs) 3600 : ℤ) : ℝ)) →
      kvFind k ((l.foldl (fun st neighbor =>
        let neighborKey := "geo:" ++ neighbor ++ ":" ++ toString radius
        let neighborProperties := doc.warmNear lng lat (radius * 1000)
        if neighborProperties.isEmpty then st
        else setCacheWithTemporalDecay now neighborKey
          (CachedData.warmed neighborProperties now) now noAttrs st) s)).kv =
        some (⟨CachedData.warmed (doc.warmNear lng lat (radius * 1000)) now,
          calculateTemporalScore now now noAttrs, now, ⟨now, noAttrs⟩⟩,
          now + 1000 * ((calculateDynamicTTL (calculateTemporalScore now now noAttrs) 3600 : ℤ) : ℝ)) := by
  induction l with
  | nil => intro s h; exact h
  | cons hd tl ih =>
    intro s h
    rw [List.foldl_cons]
    apply ih
    dsimp only
    by_cases hemp : (doc.warmNear lng lat (radius * 1000)).isEmpty
    · rw [if_pos hemp]
      exact h
    · rw [if_neg hemp, kvFind_setCache]
      by_cases hkey : k = "geo:" ++ hd ++ ":" ++ toString radius
      · rw [if_pos hkey]
      · rw [if_neg hkey]
        exact h

/-- Warming writes the warming bucket under each neighbor's key when
the payload is non-empty, regardless of what was stored before. -/
theorem kvFind_warmNeighbors_mem (doc : DocStore) (now : ℝ) (lat lng radius : ℚ)
    (s : DecayState CachedData) (n : String) (hn : n ∈ getNeighbors lat lng radius)
    (hne : doc.warmNear lng lat (radius * 1000) ≠ []) :
    kvFind ("geo:" ++ n ++ ":" ++ toString radius)
        (warmNeighbors doc now lat lng radius s).kv =
      some (⟨CachedData.warmed (doc.warmNear lng lat (radius * 1000)) now,
        calculateTemporalScore now now noAttrs, now, ⟨now, noAttrs⟩⟩,
        now + 1000 * ((calculateDynamicTTL (calculateTemporalScore now now noAttrs) 3600 : ℤ) : ℝ)) := by
  rw [warmNeighbors]
  revert hn
  generalize getNeighbors lat lng radius = l
  induction l generalizing s with
  | nil =>
    intro hn
    exact absurd hn (List.not_mem_nil n)
  | cons hd tl ih =>
    intro hn
    rw [List.foldl_cons]
    by_cases hmem : n ∈ tl
    · exact ih _ hmem
    · have hhd : n = hd := by
        rcases List.mem_cons.mp hn with h | h
        · exact h
        · exact absurd h hmem
      subst hhd
      apply kvFind_warmNeighbors_frozen
      dsimp only
      rw [if_neg (by simpa [List.isEmpty_iff] using hne), kvFind_setCache, if_pos rfl]

/-- C10: during neighbor warming each of the 8 warming queries is
centered at the original query coordinates — the warmed state depends
on the doc store only through its answer at `(lng, lat)` — the key
`geo:<neighbor>:<radius>` is written only when that answer is
non-empty (an empty answer leaves the key exactly as it was), and a
non-empty answer overwrites the key with the warming bucket no matter
what was present before. -/
theorem neighbor_warming_spec (doc doc' : DocStore) (now : ℝ) (lat lng radius : ℚ)
    (s : DecayState CachedData) (n : String)
    (hagree : doc.warmNear lng lat (radius * 1000) = doc'.warmNear lng lat (radius * 1000))
    (hn : n ∈ getNeighbors lat lng radius) :
    warmNeighbors doc now lat lng radius s = warmNeighbors doc' now lat lng radius s ∧
    (doc.warmNear lng lat (radius * 1000) = [] →
      kvFind ("geo:" ++ n ++ ":" ++ toString radius)
          (warmNeighbors doc now lat lng radius s).kv =
        kvFind ("geo:" ++ n ++ ":" ++ toString radius) s.kv) ∧
    (doc.warmNear lng lat (radius * 1000) ≠ [] →
      kvFind ("geo:" ++ n ++ ":" ++ toString radius)
          (warmNeighbors doc now lat lng radius s).kv =
        some (⟨CachedData.warmed (doc.warmNear lng lat (radius * 1000)) now,
          calculateTemporalScore now now noAttrs, now, ⟨now, noAttrs⟩⟩,
          now + 1000 * ((calculateDynamicTTL (calculateTemporalScore now now noAttrs) 3600 : ℤ) : ℝ))) := by
  refine ⟨?_, ?_, ?_⟩
  · rw [warmNeighbors, warmNeighbors, hagree]
  · intro hempty
    exact kvFind_warmNeighbors_other doc now lat lng radius s _
      (fun _ _ => Or.inr hempty)
  · intro hne
    exact kvFind_warmNeighbors_mem doc now lat lng radius s n hn hne

/-- Witness for `neighbor_warming_spec`: warming around the origin with
radius 10 and an empty warming answer leaves the neighbor key
`geo:ebpbp:10` untouched, for two doc stores that agree at the original
center. -/
theorem neighbor_warming_spec_witness :
    warmNeighbors ⟨fun _ _ _ => 0, fun _ _ _ _ _ => [], fun _ _ _ => []⟩ 0 0 0 10
        ⟨[], [], 0⟩ =
      warmNeighbors ⟨fun _ _ _ => 0, fun _ _ _ _ _ => [],
        fun lg lt d => if lg = 0 ∧ lt = 0 ∧ d = 10000 then []
          else [⟨0, false, false, false, 0, 0⟩]⟩ 0 0 0 10 ⟨[], [], 0⟩ ∧
    ((([] : List RawProperty) = []) →
      kvFind ("geo:" ++ "ebpbp" ++ ":" ++ toString (10 : ℚ))
          (warmNeighbors ⟨fun _ _ _ => 0, fun _ _ _ _ _ => [], fun _ _ _ => []⟩ 0 0 0 10
            ⟨[], [], 0⟩).kv =
        kvFind ("geo:" ++ "ebpbp" ++ ":" ++ toString (10 : ℚ))
          (⟨[], [], 0⟩ : DecayState CachedData).kv) ∧
    ((([] : List RawProperty) ≠ []) →
      kvFind ("geo:" ++ "ebpbp" ++ ":" ++ toString (10 : ℚ))
          (warmNeighbors ⟨fun _ _ _ => 0, fun _ _ _ _ _ => [], fun _ _ _ => []⟩ 0 0 0 10
            ⟨[], [], 0⟩).kv =
        some (⟨CachedData.warmed [] 0, calculateTemporalScore 0 0 noAttrs, 0, ⟨0, noAttrs⟩⟩,
          0 + 1000 * ((calculateDynamicTTL (calculateTemporalScore 0 0 noAttrs) 3600 : ℤ) : ℝ))) :=
  neighbor_warming_spec
    ⟨fun _ _ _ => 0, fun _ _ _ _ _ => [], fun _ _ _ => []⟩
    ⟨fun _ _ _ => 0, fun _ _ _ _ _ => [],
      fun lg lt d => if lg = 0 ∧ lt = 0 ∧ d = 10000 then [] else [⟨0, false, false, false, 0, 0⟩]⟩
    0 0 0 10 ⟨[], [], 0⟩ "ebpbp"
    (by norm_num)
    (by with_unfolding_all decide)

/-- Within two hours (the maximal dynamic TTL) a bucket written with
`dateAdded = now` and no badges never crosses the 30% degradation
threshold. -/
theorem not_degraded_within_ttl (t1 t2 : ℝ) (h12 : t1 ≤ t2) (h2 : t2 < t1 + 7200000) :
    ¬ calculateTemporalScore t2 t1 noAttrs <
        calculateTemporalScore t1 t1 noAttrs * 0.7 := by
  rw [calculateTemporalScore_self, one_mul, not_lt]
  simp only [calculateTemporalScore, noAttrs]
  have hd0 : (0 : ℝ) ≤ (t2 - t1) / (1000 * 60 * 60 * 24) := by
    apply div_nonneg (by linarith) (by norm_num)
  have hd1 : (t2 - t1) / (1000 * 60 * 60 * 24) ≤ 1 / 12 := by
    rw [div_le_iff (by norm_num)]
    linarith
  rw [min_eq_left (by linarith), if_pos (by linarith)]
  simp only [Bool.false_eq_true, if_false]
  have hexp := Real.add_one_le_exp (-(0.1) * ((t2 - t1) / (1000 * 60 * 60 * 24)))
  nlinarith [hexp, hd1]

/-- The result object built on a miss. -/
noncomputable def mkResult (doc : DocStore) (now : ℝ) (lat lng radius : ℚ)
    (page limit : ℕ) : NearbyResult :=
  ⟨scoreAndSortProperties now
      (doc.pageNear lng lat (radius * 1000) ((page - 1) * limit) limit),
    doc.countNear lng lat (radius * 1000),
    (doc.countNear lng lat (radius * 1000) + limit - 1) / limit,
    page, now, lat, lng, radius⟩

/-- Reduction of `findNearbyProperties` on a cache miss. -/
theorem findNearbyProperties_miss (doc : DocStore) (now : ℝ) (lat lng radius : ℚ)
    (page limit : ℕ) (o : OptimizerState) (s : DecayState CachedData)
    (hmiss : (getCacheWithTemporalCheck now (generateKey lat lng radius) s).1 = none) :
    findNearbyProperties doc now lat lng radius page limit (o, s) =
      (CachedData.result (mkResult doc now lat lng radius page limit),
       (trackMiss (generateKey lat lng radius) now
         (o, (getCacheWithTemporalCheck now (generateKey lat lng radius) s).2)).1,
       warmNeighbors doc now lat lng radius
         (setCacheWithTemporalDecay now (generateKey lat lng radius)
           (CachedData.result (mkResult doc now lat lng radius page limit)) now noAttrs
           (trackMiss (generateKey lat lng radius) now
             (o, (getCacheWithTemporalCheck now (generateKey lat lng radius) s).2)).2)) := by
  have hpair : getCacheWithTemporalCheck now (generateKey lat lng radius) s =
      (none, (getCacheWithTemporalCheck now (generateKey lat lng radius) s).2) := by
    rw [← hmiss]
  simp only [findNearbyProperties]
  rw [hpair]
  rfl

/-- Reduction of `findNearbyProperties` on a cache hit. -/
theorem findNearbyProperties_hit (doc : DocStore) (now : ℝ) (lat lng radius : ℚ)
    (page limit : ℕ) (o : OptimizerState) (s : DecayState CachedData) (v : CachedData)
    (hhit : (getCacheWithTemporalCheck now (generateKey lat lng radius) s).1 = some v) :
    findNearbyProperties doc now lat lng radius page limit (o, s) =
      (v, trackHit (generateKey lat lng radius) now
        (o, (getCacheWithTemporalCheck now (generateKey lat lng radius) s).2)) := by
  have hpair : getCacheWithTemporalCheck now (generateKey lat lng radius) s =
      (some v, (getCacheWithTemporalCheck now (generateKey lat lng radius) s).2) := by
    rw [← hhit]
  simp only [findNearbyProperties]
  rw [hpair]

set_option maxHeartbeats 1600000 in
/-- C8: a nearby query that misses, immediately re-issued identically
within the TTL of the bucket it wrote, is served from the cache: the
second payload is identical to the first (even its
`metadata.queryTimestamp`), and the `cacheHits` statistic reported by
the `cacheStats` endpoint grows by exactly 1.  The side conditions say
the first query was a miss and that neighbor warming does not write
over the main key. -/
theorem repeat_nearby_query (doc : DocStore) (t1 t2 : ℝ) (lat lng radius : ℚ)
    (page limit : ℕ) (o0 : OptimizerState) (s0 : DecayState CachedData)
    (hmiss : (getCacheWithTemporalCheck t1 (generateKey lat lng radius) s0).1 = none)
    (hwarm : ∀ n ∈ getNeighbors lat lng radius,
      generateKey lat lng radius ≠ "geo:" ++ n ++ ":" ++ toString radius ∨
      doc.warmNear lng lat (radius * 1000) = [])
    (h12 : t1 ≤ t2)
    (httl : t2 < t1 + 1000 *
      ((calculateDynamicTTL (calculateTemporalScore t1 t1 noAttrs) 3600 : ℤ) : ℝ)) :
    (findNearbyProperties doc t2 lat lng radius page limit
        (findNearbyProperties doc t1 lat lng radius page limit (o0, s0)).2).1 =
      (findNearbyProperties doc t1 lat lng radius page limit (o0, s0)).1 ∧
    getCacheHitCount (findNearbyProperties doc t2 lat lng radius page limit
        (findNearbyProperties doc t1 lat lng radius page limit (o0, s0)).2).2.2 =
      getCacheHitCount
        (findNearbyProperties doc t1 lat lng radius page limit (o0, s0)).2.2 + 1 := by
  have httl7200 : t2 < t1 + 7200000 := by
    rw [calculateTemporalScore_self, calculateDynamicTTL_one] at httl
    push_cast at httl
    linarith
  have hr1 := findNearbyProperties_miss doc t1 lat lng radius page limit o0 s0 hmiss
  rw [hr1]
  set key := generateKey lat lng radius with hkey
  set v1 := CachedData.result (mkResult doc t1 lat lng radius page limit) with hv1
  set o1 := (trackMiss key t1 (o0, (getCacheWithTemporalCheck t1 key s0).2)).1 with ho1
  set s1 := warmNeighbors doc t1 lat lng radius
    (setCacheWithTemporalDecay t1 key v1 t1 noAttrs
      (trackMiss key t1 (o0, (getCacheWithTemporalCheck t1 key s0).2)).2) with hs1
  have hfind : kvFind key s1.kv =
      some (⟨v1, calculateTemporalScore t1 t1 noAttrs, t1, ⟨t1, noAttrs⟩⟩,
        t1 + 1000 * ((calculateDynamicTTL (calculateTemporalScore t1 t1 noAttrs) 3600 : ℤ) : ℝ)) := by
    rw [hs1, kvFind_warmNeighbors_other doc t1 lat lng radius _ key hwarm,
      kvFind_setCache, if_pos rfl]
  have hget2 : getCacheWithTemporalCheck t2 key s1 =
      (some v1, { s1 with cacheHits := s1.cacheHits + 1 }) := by
    simp only [getCacheWithTemporalCheck, redisGet, hfind]
    rw [if_pos httl]
    simp only [if_neg (not_degraded_within_ttl t1 t2 h12 httl7200)]
  have hr2 := findNearbyProperties_hit doc t2 lat lng radius page limit o1 s1 v1
    (by rw [hget2])
  dsimp only
  rw [hr2, hget2]
  refine ⟨rfl, ?_⟩
  show (trackHit key t2 (o1, { s1 with cacheHits := s1.cacheHits + 1 })).2.cacheHits =
    s1.cacheHits + 1
  rw [cacheHits_trackHit]

/-- Witness for `repeat_nearby_query`: both queries at time 0 on an
empty cache, with a doc store whose warming answer is empty. -/
theorem repeat_nearby_query_witness :
    (findNearbyProperties ⟨fun _ _ _ => 0, fun _ _ _ _ _ => [], fun _ _ _ => []⟩ 0 0 0 10 1 50
        (findNearbyProperties ⟨fun _ _ _ => 0, fun _ _ _ _ _ => [], fun _ _ _ => []⟩ 0 0 0 10 1 50
          (⟨fun _ => 0, fun _ => 0⟩, ⟨[], [], 0⟩)).2).1 =
      (findNearbyProperties ⟨fun _ _ _ => 0, fun _ _ _ _ _ => [], fun _ _ _ => []⟩ 0 0 0 10 1 50
        (⟨fun _ => 0, fun _ => 0⟩, ⟨[], [], 0⟩)).1 ∧
    getCacheHitCount (findNearbyProperties ⟨fun _ _ _ => 0, fun _ _ _ _ _ => [], fun _ _ _ => []⟩
        0 0 0 10 1 50
        (findNearbyProperties ⟨fun _ _ _ => 0, fun _ _ _ _ _ => [], fun _ _ _ => []⟩ 0 0 0 10 1 50
          (⟨fun _ => 0, fun _ => 0⟩, ⟨[], [], 0⟩)).2).2.2 =
      getCacheHitCount (findNearbyProperties ⟨fun _ _ _ => 0, fun _ _ _ _ _ => [], fun _ _ _ => []⟩
        0 0 0 10 1 50 (⟨fun _ => 0, fun _ => 0⟩, ⟨[], [], 0⟩)).2.2 + 1 :=
  repeat_nearby_query ⟨fun _ _ _ => 0, fun _ _ _ _ _ => [], fun _ _ _ => []⟩ 0 0 0 0 10 1 50
    ⟨fun _ => 0, fun _ => 0⟩ ⟨[], [], 0⟩
    rfl
    (fun _ _ => Or.inr rfl)
    le_rfl
    (by rw [calculateTemporalScore_self, calculateDynamicTTL_one]; norm_num)
